import Mathlib

/-!
Verification of the `rust_os` kernel core against its natural-language
specification.  Each Rust item that a claim touches is shallowly embedded as
an executable Lean definition: machine pointers become `Nat` (with `none`
standing for the null pointer), fallible or panicking code returns
`Option`/`Except`, and the global mutable state that an operation touches is
passed and returned explicitly.
-/

/- ### Heap allocator (src/src/allocator.rs) -/

/-- Model of `alloc::alloc::Layout`: a requested size and alignment. -/
structure Layout where
  size : Nat
  align : Nat
deriving DecidableEq

/-- Starting address of the heap region in virtual memory
(`HEAP_START` in src/src/allocator.rs). -/
def HEAP_START : Nat := 0x444444440000

/-- Size of the heap, 100 KiB (`HEAP_SIZE` in src/src/allocator.rs). -/
def HEAP_SIZE : Nat := 100 * 1024

/-- The `Dummy` unit struct of src/src/allocator.rs, the type of the
registered `#[global_allocator]`. -/
structure Dummy where
deriving DecidableEq

/-- Embeds `Dummy::alloc` from src/src/allocator.rs: "Dummy does not perform
allocation, it simply returns a null pointer".  The null pointer is modelled
as `none`; a successful allocation would be `some address`. -/
def Dummy.alloc (_self : Dummy) (_layout : Layout) : Option Nat :=
  none

/-- Embeds `Dummy::dealloc` from src/src/allocator.rs: it unconditionally panics,
modelled as always returning `Except.error` with the panic message. -/
def Dummy.dealloc (_self : Dummy) (_ptr : Nat) (_layout : Layout) :
    Except String Unit :=
  Except.error
    "dealloc should never be called, as Dummy does not have a functional alloc implementation"

/-- The `ALLOCATOR` static of src/src/allocator.rs. -/
def ALLOCATOR : Dummy := {}

/-- Follows the spec's words (not the source): "rounds the cursor up to the
requested alignment".  Used only to state what the spec predicts the
allocator does, for comparison with `Dummy.alloc`. -/
def specAlignUp (addr align : Nat) : Nat :=
  (addr + align - 1) / align * align

/- ### Bounded lock-free queues (crossbeam ArrayQueue, capacity 100) -/

/-- Model of `crossbeam_queue::ArrayQueue::push` for the capacity-100 queues
created in `Executor::new` and `ScancodeStream::new`: pushing onto a full
queue fails (`none`), otherwise the element is appended at the back. -/
def qpush (q : List Nat) (x : Nat) : Option (List Nat) :=
  if q.length < 100 then some (q ++ [x]) else none

/- ### Scancode queue (src/src/task/keyboard.rs) -/

/-- The `SCANCODE_QUEUE` once-cell, modelled as `none` while uninitialised
and `some queue` once `ScancodeStream::new` has initialised it. -/
def ScancodeQueueState : Type := Option (List Nat)

/-- Embeds `ScancodeStream::new` from src/src/task/keyboard.rs: `try_init_once`
succeeds only if the once-cell is still uninitialised, installing an empty
capacity-100 queue; otherwise the `expect` fires, modelled as
`Except.error` with the panic message. -/
def ScancodeStream.new (s : Option (List Nat)) :
    Except String (Option (List Nat)) :=
  match s with
  | none => Except.ok (some [])
  | some _ => Except.error "ScancodeStream::new should only be called once"

/-- Embeds `add_scancode` from src/src/task/keyboard.rs.  Returns the new queue
state, the list of warnings printed, and whether `WAKER.wake()` was invoked.
If the once-cell is initialised it pushes the byte; a failed push (full
queue) drops the byte and prints a warning; a successful push wakes the
executor; an uninitialised queue just prints a warning.  The function is
total: it never blocks and never panics. -/
def add_scancode (s : Option (List Nat)) (scancode : Nat) :
    Option (List Nat) × List String × Bool :=
  match s with
  | some queue =>
    match qpush queue scancode with
    | some queue' => (some queue', [], true)
    | none => (some queue, ["WARNING: scancode queue full; dropping keyboard input"], false)
  | none => (none, ["WARNING: scancode queue uninitialized"], false)

/- ### Keyboard interrupt handler (src/src/interrupts.rs) -/

/-- Observable effects of the keyboard interrupt handler: the port read, the
characters it prints, and the end-of-interrupt notification. -/
inductive KbdEffect where
  | portRead (scancode : Nat)
  | printUnicode (c : Char)
  | printRawKey (keycode : Nat)
  | endOfInterrupt (vector : Nat)
deriving DecidableEq

/-- Model of `pc_keyboard` (external crate) `Keyboard::add_byte` for
scancode set 1, single-byte scancodes: a byte below `0x80` is a key-down
event for that keycode, a byte in `0x80..0xFF` is the key-up event for
`byte - 0x80`.  The result is `(keycode, isKeyDown)`. -/
def kbdAddByte (scancode : Nat) : Option (Nat × Bool) :=
  if scancode < 0x80 then some (scancode, true)
  else if scancode < 0x100 then some (scancode - 0x80, false)
  else none

/-- Model of the `pc_keyboard` `Us104Key` layout (external crate) on the
keycodes this development exercises: set-1 keycode `0x1E` is the letter a,
`0x30` is b.  Other keycodes are treated as having no unicode decoding. -/
def us104KeyChar (keycode : Nat) : Option Char :=
  if keycode = 0x1E then some 'a'
  else if keycode = 0x30 then some 'b'
  else none

/-- Model of `Keyboard::process_keyevent` with `HandleControl::Ignore`
(external crate): key-down events decode to a unicode character when the
layout provides one and to a raw key otherwise; key-up events decode to
nothing. -/
def processKeyevent (ev : Nat × Bool) : Option KbdEffect :=
  match ev with
  | (keycode, true) =>
    match us104KeyChar keycode with
    | some c => some (KbdEffect.printUnicode c)
    | none => some (KbdEffect.printRawKey keycode)
  | (_, false) => none

/-- Vector number of `InterruptIndex::Keyboard`: a vector number: `PIC_1_OFFSET + 1 = 33`
(src/src/interrupts.rs). -/
def keyboardVector : Nat := 33

/-- Embeds `keyboard_interrupt_handler` from src/src/interrupts.rs.  Its body reads
one byte from the PS/2 data port, feeds it to the lazily-initialised
`pc_keyboard` decoder, prints the decoded key if any, and notifies
end-of-interrupt.  The handler body never mentions the scancode queue, so
the queue state is returned unchanged; the effect trace records what the
handler did, in order. -/
def keyboard_interrupt_handler (scancode : Nat) (q : Option (List Nat)) :
    Option (List Nat) × List KbdEffect :=
  let printEffects :=
    match kbdAddByte scancode with
    | some ev =>
      match processKeyevent ev with
      | some eff => [eff]
      | none => []
    | none => []
  (q, KbdEffect.portRead scancode :: printEffects ++ [KbdEffect.endOfInterrupt keyboardVector])

/- ### Page-table walk (src/src/memory.rs) -/

/-- One entry of a page table, as observed through the x86_64 crate's
`PageTableEntry::frame()`: either the present flag is clear, or the entry
points at a 4 KiB frame with the given start address, or the entry is a
large/huge page. -/
inductive PTEntry where
  | notPresent
  | frame (addr : Nat)
  | hugePage
deriving DecidableEq

/-- Physical memory, viewed as page tables: `mem tableStart index` is the
entry at the given index of the page table stored in the frame starting at
`tableStart`.  The source reads each table through the fixed
physical-memory offset, which maps all of physical memory into virtual
memory; in this embedding that bijection is applied implicitly, so tables
are read directly at their physical start address. -/
def PhysMem : Type := Nat → Nat → PTEntry

/-- Model of the x86_64 crate's `PageTableEntry::frame()`: `Ok(frame)` for a
present 4 KiB mapping, `Err(FrameNotPresent)` when the present flag is
clear, `Err(HugeFrame)` for a large/huge page. -/
inductive FrameError where
  | frameNotPresent
  | hugeFrame
deriving DecidableEq

/-- Evaluates `entry.frame()` on one page-table entry. -/
def PTEntry.frameResult : PTEntry → Except FrameError Nat
  | PTEntry.notPresent => Except.error FrameError.frameNotPresent
  | PTEntry.frame addr => Except.ok addr
  | PTEntry.hugePage => Except.error FrameError.hugeFrame

/-- The `for &index in &table_indexes` loop of `translate_addr_inner`:
starting from the current table frame, follow each index in turn.  The loop
exits early with `ok none` when an entry is not present (`return None` in
the source), fails with the panic message on a huge page, and otherwise
ends with the frame reached after the last index. -/
def translateLoop (mem : PhysMem) : List Nat → Nat → Except String (Option Nat)
  | [], frame => Except.ok (some frame)
  | index :: rest, frame =>
    match (mem frame index).frameResult with
    | Except.ok next => translateLoop mem rest next
    | Except.error FrameError.frameNotPresent => Except.ok none
    | Except.error FrameError.hugeFrame => Except.error "huge pages not supported"

/-- Embeds `VirtAddr::p4_index`: bits 39..47 of the virtual address. -/
def p4Index (addr : Nat) : Nat := addr / 2 ^ 39 % 512

/-- Embeds `VirtAddr::p3_index`: bits 30..38 of the virtual address. -/
def p3Index (addr : Nat) : Nat := addr / 2 ^ 30 % 512

/-- Embeds `VirtAddr::p2_index`: bits 21..29 of the virtual address. -/
def p2Index (addr : Nat) : Nat := addr / 2 ^ 21 % 512

/-- Embeds `VirtAddr::p1_index`: bits 12..20 of the virtual address. -/
def p1Index (addr : Nat) : Nat := addr / 2 ^ 12 % 512

/-- Embeds `VirtAddr::page_offset`: the low 12 bits of the virtual address. -/
def pageOffset (addr : Nat) : Nat := addr % 2 ^ 12

/-- Embeds `translate_addr_inner` from src/src/memory.rs.  `l4` is the start
address of the active level-4 table frame read from the CR3 register.  The
walk visits the four table indexes of `addr` from level 4 down to level 1
and, on success, adds the page offset to the final frame's start address.
`ok none` is Rust's `None` (not mapped); `error` is the
"huge pages not supported" panic. -/
def translate_addr_inner (mem : PhysMem) (l4 : Nat) (addr : Nat) :
    Except String (Option Nat) :=
  match translateLoop mem [p4Index addr, p3Index addr, p2Index addr, p1Index addr] l4 with
  | Except.ok (some frame) => Except.ok (some (frame + pageOffset addr))
  | Except.ok none => Except.ok none
  | Except.error e => Except.error e

/- ### Heap-region mapping (init_heap, src/src/allocator.rs) -/

/-- The page-table flags that matter to this development: the PRESENT and
WRITABLE bits. -/
structure PageFlags where
  present : Bool
  writable : Bool
deriving DecidableEq

/-- A `Mapper<Size4KiB>` viewed through its observable mappings: each page
start address is either unmapped or mapped to a frame with flags. -/
def MapperState : Type := Nat → Option (Nat × PageFlags)

/-- Model of the x86_64 crate's `Mapper::map_to` (followed by `flush`):
installs the page → frame mapping with the given flags.  Allocation of
missing intermediate table levels and the TLB flush are internal to the
external crate and not observable here. -/
def map_to (m : MapperState) (page frame : Nat) (flags : PageFlags) : MapperState :=
  fun p => if p = page then some (frame, flags) else m p

/-- The one variant of the x86_64 crate's `MapToError` that `init_heap`
produces itself (via `ok_or`) when `allocate_frame` returns `None`. -/
inductive MapToError where
  | frameAllocationFailed
deriving DecidableEq

/-- A `FrameAllocator<Size4KiB>` viewed as the sequence of frames it will
hand out; `allocate_frame` pops the next one and returns `None` when the
allocator is exhausted. -/
def frameAllocNext (frames : List Nat) : Option (Nat × List Nat) :=
  match frames with
  | [] => none
  | f :: rest => some (f, rest)

/-- Embeds `Page::containing_address`: the 4 KiB-aligned start of the page holding
the address. -/
def pageContaining (addr : Nat) : Nat := addr / 4096 * 4096

/-- The `page_range` of `init_heap`: `Page::range_inclusive` from the page
containing `HEAP_START` to the page containing `HEAP_START + HEAP_SIZE - 1`,
as the list of page start addresses. -/
def heapPageRange : List Nat :=
  let heap_start := HEAP_START
  let heap_end := heap_start + HEAP_SIZE - 1
  let startPage := pageContaining heap_start
  let endPage := pageContaining heap_end
  (List.range ((endPage - startPage) / 4096 + 1)).map (fun i => startPage + 4096 * i)

/-- The `for page in page_range` loop of `init_heap`: for each page,
allocate a frame (returning `MapToError::FrameAllocationFailed` if the
allocator is exhausted) and map the page to it with the PRESENT and
WRITABLE flags.  Returns the final mapper and the remaining frames. -/
def init_heap_loop (pages : List Nat) (m : MapperState) (frames : List Nat) :
    Except MapToError (MapperState × List Nat) :=
  match pages with
  | [] => Except.ok (m, frames)
  | page :: rest =>
    match frameAllocNext frames with
    | none => Except.error MapToError.frameAllocationFailed
    | some (frame, frames') =>
      init_heap_loop rest (map_to m page frame ⟨true, true⟩) frames'

/-- Embeds `init_heap` from src/src/allocator.rs, over the heap page range. -/
def init_heap (m : MapperState) (frames : List Nat) :
    Except MapToError (MapperState × List Nat) :=
  init_heap_loop heapPageRange m frames

/-- The mapper state after `init_heap`, when it succeeds (used to state
results without an existential); on failure the original mapper is
returned. -/
def mapperAfter (m : MapperState) (frames : List Nat) : MapperState :=
  match init_heap m frames with
  | Except.ok (m', _) => m'
  | Except.error _ => m

/-- An unmapped initial mapper state, for concrete witnesses. -/
def emptyMapper : MapperState := fun _ => none

/- ### Boot-info frame allocator (memory module) -/

/-- Modelled from the spec: `BootInfoFrameAllocator` is referenced from
src/src/main.rs (`rust_os::memory::BootInfoFrameAllocator`) but its
definition is not among the source files under src/.  Following the spec's
contract — "`allocate_frame() -> Frame | exhausted` consumes the next
unused physical frame from a boot-provided usable-memory map, advancing a
cursor; never reuses a frame" — the allocator holds the list of usable
frame start addresses derived from the boot memory map and a cursor into
it. -/
structure BootInfoFrameAllocator where
  usable_frames : List Nat
  next : Nat
deriving DecidableEq

/-- Modelled from the spec: `allocate_frame` returns the frame at the
cursor (or `none` once the usable map is exhausted) and advances the
cursor. -/
def allocate_frame (a : BootInfoFrameAllocator) :
    Option Nat × BootInfoFrameAllocator :=
  (a.usable_frames[a.next]?, { a with next := a.next + 1 })

/-- The allocator state after `k` successive `allocate_frame` calls. -/
def allocStateAfter (a : BootInfoFrameAllocator) : Nat → BootInfoFrameAllocator
  | 0 => a
  | k + 1 => (allocate_frame (allocStateAfter a k)).2

/-- The result of the `k`-th `allocate_frame` call (counting from 0) in a
sequence of calls starting from state `a`. -/
def allocResult (a : BootInfoFrameAllocator) (k : Nat) : Option Nat :=
  (allocate_frame (allocStateAfter a k)).1

/- ### Cooperative task executor (src/src/task.rs, src/src/task/executor.rs) -/

/-- Embeds `TaskId::new` from src/src/task.rs: an atomic fetch-and-add on the
`NEXT_ID` counter, returning the previous value as the fresh id and leaving
the counter incremented. -/
def TaskId.new (next_id : Nat) : Nat × Nat :=
  (next_id, next_id + 1)

/-- The `Executor` of src/src/task/executor.rs.  A task is modelled by its
id together with the number of polls its future still needs before
completing (a future that returns `Poll::Pending` until its last poll and
wakes itself when pending).  `tasks` is the `BTreeMap<TaskId, Task>` as an
association list, `task_queue` the capacity-100 `ArrayQueue<TaskId>`, and
`waker_cache` the set of task ids with a cached waker.  `completions` and
`polled` are observation fields recording, respectively, how many polls
returned `Poll::Ready` and the sequence of task ids polled; they model no
Rust state. -/
structure Executor where
  tasks : List (Nat × Nat)
  task_queue : List Nat
  waker_cache : List Nat
  completions : Nat
  polled : List Nat
deriving DecidableEq

/-- Embeds `Executor::new`: empty task table, empty queue, empty waker cache. -/
def Executor.new : Executor := ⟨[], [], [], 0, []⟩

/-- Embeds `Executor::spawn` from src/src/task/executor.rs: panics (modelled as
`Except.error`) when a task with the same id is already in the table,
otherwise inserts the task and pushes its id, panicking with "queue full"
when the `ArrayQueue` rejects the push. -/
def Executor.spawn (σ : Executor) (t : Nat × Nat) : Except String Executor :=
  if (σ.tasks.lookup t.1).isSome then
    Except.error "task with same ID already in tasks"
  else
    match qpush σ.task_queue t.1 with
    | some q => Except.ok { σ with tasks := σ.tasks ++ [t], task_queue := q }
    | none => Except.error "queue full"

/-- In-place update of a task's future state in the task table (the effect
of polling a still-pending task). -/
def updateTask (tasks : List (Nat × Nat)) (id rem : Nat) : List (Nat × Nat) :=
  tasks.map fun p => if p.1 = id then (id, rem) else p

/-- Embeds `tasks.remove(&task_id)` on the association list. -/
def removeTask (tasks : List (Nat × Nat)) (id : Nat) : List (Nat × Nat) :=
  tasks.filter fun p => p.1 != id

/-- Result of one iteration of the `while let Some(task_id) = task_queue.pop()`
loop of `run_ready_tasks`: the queue was empty (loop exits), or a waker's
push paniced on a full queue, or the new executor state. -/
inductive StepRes where
  | done
  | fatal
  | next (σ : Executor)
deriving DecidableEq

/-- One iteration of `run_ready_tasks` (src/src/task/executor.rs): pop the
next id; skip it if the task no longer exists; otherwise cache a waker for
it if none is cached, and poll it.  A poll that returns `Poll::Ready`
removes the task and its cached waker; a poll that returns `Poll::Pending`
decrements the remaining-poll count, and — since the modelled future wakes
itself when suspending — its waker pushes the id back onto the queue
(`TaskWaker::wake_task`, whose `expect` is `StepRes.fatal` on a full
queue). -/
def Executor.step (σ : Executor) : StepRes :=
  match σ.task_queue with
  | [] => StepRes.done
  | task_id :: rest =>
    match σ.tasks.lookup task_id with
    | none => StepRes.next { σ with task_queue := rest }
    | some rem =>
      let cache' := if task_id ∈ σ.waker_cache then σ.waker_cache
                    else task_id :: σ.waker_cache
      if rem ≤ 1 then
        StepRes.next { tasks := removeTask σ.tasks task_id,
                       task_queue := rest,
                       waker_cache := cache'.filter (fun x => x != task_id),
                       completions := σ.completions + 1,
                       polled := σ.polled ++ [task_id] }
      else
        match qpush rest task_id with
        | some q' =>
          StepRes.next { tasks := updateTask σ.tasks task_id (rem - 1),
                         task_queue := q',
                         waker_cache := cache',
                         completions := σ.completions,
                         polled := σ.polled ++ [task_id] }
        | none => StepRes.fatal

/-- Embeds `run_ready_tasks`, fuelled: iterate `step` until the queue is empty
(returning the final state) or the fuel runs out or a waker panics
(`none`). -/
def Executor.runReady : Nat → Executor → Option Executor
  | 0, _ => none
  | fuel + 1, σ =>
    match σ.step with
    | StepRes.done => some σ
    | StepRes.fatal => none
    | StepRes.next σ' => Executor.runReady fuel σ'

/-- Spawning a list of tasks in order. -/
def spawnAll (ts : List (Nat × Nat)) (σ : Executor) : Except String Executor :=
  match ts with
  | [] => Except.ok σ
  | t :: rest =>
    match σ.spawn t with
    | Except.ok σ' => spawnAll rest σ'
    | Except.error e => Except.error e

/-- N tasks with consecutive ids, each of which suspends once (first poll
pending, waking itself) and completes on its second poll. -/
def yieldOnceTasks (N : Nat) : List (Nat × Nat) :=
  (List.range N).map fun i => (i, 2)

/-- The executor state right after spawning the N yield-once tasks. -/
def scenarioInit (N : Nat) : Executor :=
  ⟨(List.range N).map (fun i => (i, 2)), List.range N, [], 0, []⟩

/-- Intermediate state of the scenario run while the first round of polls
is in progress: the first `j` tasks have been polled once (pending, re-queued
behind the others), the rest still await their first poll. -/
def phase1 (N j : Nat) : Executor :=
  ⟨(List.range N).map (fun i => (i, if i < j then 1 else 2)),
   List.range' j (N - j) ++ List.range j,
   (List.range j).reverse,
   0,
   List.range j⟩

/-- Intermediate state of the scenario run during the second round of
polls: the first `j` tasks have completed and been removed, the rest are
queued awaiting their final poll. -/
def phase2 (N j : Nat) : Executor :=
  ⟨(List.range' j (N - j)).map (fun i => (i, 1)),
   List.range' j (N - j),
   (List.range' j (N - j)).reverse,
   j,
   List.range N ++ List.range j⟩

/- ### Theorems -/

/-- C1 counterexample: the spec claims `acquire` returns the rounded-up
cursor and fails only when the rounded cursor plus the size would exceed the
region bound.  On the fresh allocator (cursor would be `HEAP_START`) a
1-byte, 1-aligned request fits comfortably inside the region, yet
`Dummy::alloc` still returns the null pointer. -/
theorem dummy_alloc_refutes_bump_claim :
    ALLOCATOR.alloc ⟨1, 1⟩ = none ∧
      specAlignUp HEAP_START 1 + 1 ≤ HEAP_START + HEAP_SIZE := by
  constructor
  · rfl
  · decide

/-- C1 (amended): every `acquire` call on the heap allocator returns the
null pointer, regardless of the requested size and alignment; the `Dummy`
allocator maintains no cursor and no live-allocation counter. -/
theorem dummy_alloc_always_null (a : Dummy) (layout : Layout) :
    a.alloc layout = none := by
  rfl

/-- C2 counterexample: the spec claims `release` decrements a
live-allocation counter and that releasing everything lets a subsequent
`acquire` return the original region start.  In the code `dealloc` panics
unconditionally, and `alloc` never returns the region start (it always
returns null). -/
theorem dummy_dealloc_refutes_roundtrip_claim :
    ALLOCATOR.dealloc HEAP_START ⟨1, 1⟩ =
        Except.error
          "dealloc should never be called, as Dummy does not have a functional alloc implementation" ∧
      ALLOCATOR.alloc ⟨1, 1⟩ ≠ some HEAP_START := by
  constructor
  · rfl
  · intro h
    simp [Dummy.alloc, ALLOCATOR] at h

/-- C2 (amended): every `release` call fails fatally with the panic message
that `dealloc` should never be called; the allocator never returns to a
state from which `acquire` yields the region start, because `acquire` never
returns any address at all. -/
theorem dummy_dealloc_always_panics (a : Dummy) (ptr : Nat) (layout : Layout) :
    a.dealloc ptr layout =
      Except.error
        "dealloc should never be called, as Dummy does not have a functional alloc implementation" := by
  rfl

/-- C9: when the scancode queue is full (it holds its full capacity of 100
elements), pushing a byte from the keyboard path leaves the queue unchanged
(the byte is dropped), emits exactly the overflow warning, and does not wake
the executor; `add_scancode` is a total function, so execution continues
with no panic and no blocking. -/
theorem add_scancode_full_drops_and_warns (q : List Nat) (b : Nat)
    (hfull : q.length = 100) :
    add_scancode (some q) b =
      (some q, ["WARNING: scancode queue full; dropping keyboard input"], false) := by
  simp [add_scancode, qpush, hfull]

/-- Witness for C9 at a concrete full queue. -/
theorem add_scancode_full_drops_and_warns_witness :
    add_scancode (some (List.replicate 100 0)) 7 =
      (some (List.replicate 100 0),
        ["WARNING: scancode queue full; dropping keyboard input"], false) :=
  add_scancode_full_drops_and_warns (List.replicate 100 0) 7 (by decide)

/-- C10: the first call of `ScancodeStream::new` initialises the once-cell
with an empty queue and succeeds; any later call in the same execution finds
the once-cell already initialised, so `try_init_once` fails and the
constructor's `expect` panics with its message. -/
theorem scancode_stream_new_second_call_panics :
    ScancodeStream.new none = Except.ok (some []) ∧
      ∀ q : List Nat,
        ScancodeStream.new (some q) =
          Except.error "ScancodeStream::new should only be called once" := by
  exact ⟨rfl, fun _ => rfl⟩

/-- C3 (code evaluated at the failing input): on a keyboard interrupt
delivering scancode `0x1E` (key-down for the letter a) while the scancode
queue is initialised and empty, the handler of src/src/interrupts.rs reads
the byte from the data port, decodes and prints it directly, and signals
end-of-interrupt — but it leaves the scancode queue unchanged, whereas the
claimed behaviour (enqueueing the byte, as `add_scancode` does) would leave
the queue holding `0x1E`. -/
theorem keyboard_handler_does_not_enqueue :
    keyboard_interrupt_handler 0x1E (some []) =
        (some [],
          [KbdEffect.portRead 0x1E, KbdEffect.printUnicode 'a',
            KbdEffect.endOfInterrupt keyboardVector]) ∧
      (keyboard_interrupt_handler 0x1E (some [])).1 ≠
        (add_scancode (some []) 0x1E).1 := by
  constructor
  · rfl
  · decide

/-- C4: `translate` walks exactly four page-table levels using the virtual
address's four 9-bit index fields (bits 39.., 30.., 21.., 12..).  It returns
not-mapped (`ok none`) exactly when the first entry reached lacks the
present flag, it panics ("huge pages not supported") when the first
obstacle is a large/huge page at any level, and otherwise it returns the
final mapped frame's start address plus the 12-bit page offset. -/
theorem translate_walks_four_levels (mem : PhysMem) (l4 addr : Nat) :
    translate_addr_inner mem l4 addr =
      match mem l4 (p4Index addr) with
      | PTEntry.notPresent => Except.ok none
      | PTEntry.hugePage => Except.error "huge pages not supported"
      | PTEntry.frame f3 =>
        match mem f3 (p3Index addr) with
        | PTEntry.notPresent => Except.ok none
        | PTEntry.hugePage => Except.error "huge pages not supported"
        | PTEntry.frame f2 =>
          match mem f2 (p2Index addr) with
          | PTEntry.notPresent => Except.ok none
          | PTEntry.hugePage => Except.error "huge pages not supported"
          | PTEntry.frame f1 =>
            match mem f1 (p1Index addr) with
            | PTEntry.notPresent => Except.ok none
            | PTEntry.hugePage => Except.error "huge pages not supported"
            | PTEntry.frame f => Except.ok (some (f + pageOffset addr)) := by
  cases h4 : mem l4 (p4Index addr) with
  | notPresent =>
    simp [translate_addr_inner, translateLoop, PTEntry.frameResult, h4]
  | hugePage =>
    simp [translate_addr_inner, translateLoop, PTEntry.frameResult, h4]
  | frame f3 =>
    cases h3 : mem f3 (p3Index addr) with
    | notPresent =>
      simp [translate_addr_inner, translateLoop, PTEntry.frameResult, h4, h3]
    | hugePage =>
      simp [translate_addr_inner, translateLoop, PTEntry.frameResult, h4, h3]
    | frame f2 =>
      cases h2 : mem f2 (p2Index addr) with
      | notPresent =>
        simp [translate_addr_inner, translateLoop, PTEntry.frameResult, h4, h3, h2]
      | hugePage =>
        simp [translate_addr_inner, translateLoop, PTEntry.frameResult, h4, h3, h2]
      | frame f1 =>
        cases h1 : mem f1 (p1Index addr) with
        | notPresent =>
          simp [translate_addr_inner, translateLoop, PTEntry.frameResult, h4, h3, h2, h1]
        | hugePage =>
          simp [translate_addr_inner, translateLoop, PTEntry.frameResult, h4, h3, h2, h1]
        | frame f =>
          simp [translate_addr_inner, translateLoop, PTEntry.frameResult, h4, h3, h2, h1]

/-- Helper: if the frame allocator holds fewer frames than there are pages
left, the mapping loop fails with `FrameAllocationFailed`. -/
theorem init_heap_loop_exhausts (pages : List Nat) :
    ∀ (m : MapperState) (frames : List Nat), frames.length < pages.length →
      init_heap_loop pages m frames = Except.error MapToError.frameAllocationFailed := by
  induction pages with
  | nil =>
    intro m frames h
    simp at h
  | cons page rest ih =>
    intro m frames h
    cases frames with
    | nil => rfl
    | cons f fr =>
      have h' : fr.length < rest.length := by simpa using h
      simpa [init_heap_loop, frameAllocNext] using
        ih (map_to m page f ⟨true, true⟩) fr h'

/-- Helper: on distinct pages, with enough frames, the mapping loop succeeds
and afterwards the i-th page is mapped to the i-th allocated frame with the
PRESENT and WRITABLE flags; pages outside the list are untouched. -/
theorem init_heap_loop_ok (pages : List Nat) :
    ∀ (m : MapperState) (frames : List Nat), pages.Nodup →
      pages.length ≤ frames.length →
      ∃ m' frames', init_heap_loop pages m frames = Except.ok (m', frames') ∧
        (∀ i (hp : i < pages.length) (hf : i < frames.length),
          m' (pages.get ⟨i, hp⟩) = some (frames.get ⟨i, hf⟩, ⟨true, true⟩)) ∧
        (∀ p, p ∉ pages → m' p = m p) := by
  induction pages with
  | nil =>
    intro m frames _ _
    exact ⟨m, frames, rfl, fun i hp => absurd hp (by simp), fun p _ => rfl⟩
  | cons page rest ih =>
    intro m frames hnd hlen
    cases frames with
    | nil => simp at hlen
    | cons f fr =>
      obtain ⟨hpage, hrest⟩ := List.nodup_cons.mp hnd
      have hlen' : rest.length ≤ fr.length := by simpa using hlen
      obtain ⟨m', frames', heq, hidx, hpres⟩ :=
        ih (map_to m page f ⟨true, true⟩) fr hrest hlen'
      refine ⟨m', frames', ?_, ?_, ?_⟩
      · simpa [init_heap_loop, frameAllocNext] using heq
      · intro i hp hf
        rcases i with _ | i
        · have h0 := hpres page hpage
          show m' page = some (f, ⟨true, true⟩)
          simpa [map_to] using h0
        · have hp' : i < rest.length := by simpa using hp
          have hf' : i < fr.length := by simpa using hf
          show m' (rest.get ⟨i, hp'⟩) = some (fr.get ⟨i, hf'⟩, ⟨true, true⟩)
          exact hidx i hp' hf'
      · intro p hp
        have hne : p ≠ page := fun h => hp (h ▸ List.mem_cons_self page rest)
        have h1 : m' p = map_to m page f ⟨true, true⟩ p :=
          hpres p (fun h => hp (List.mem_cons_of_mem _ h))
        simpa [map_to, hne] using h1

/-- The heap page range consists of distinct pages. -/
theorem heapPageRange_nodup : heapPageRange.Nodup := by decide

/-- C5: when the frame allocator can supply a frame for every page of the
fixed heap range, `init_heap` succeeds and every heap page ends up mapped to
its freshly allocated frame (the i-th page to the i-th frame handed out, so
frames are consumed one per page) with the PRESENT and WRITABLE flags; and
when the allocator runs out of frames first, `init_heap` returns the typed
error `MapToError::FrameAllocationFailed` to its caller instead of
panicking. -/
theorem init_heap_maps_every_heap_page (m : MapperState) (frames : List Nat) :
    (heapPageRange.length ≤ frames.length →
      (init_heap m frames).isOk = true ∧
        ∀ i (hp : i < heapPageRange.length) (hf : i < frames.length),
          mapperAfter m frames (heapPageRange.get ⟨i, hp⟩) =
            some (frames.get ⟨i, hf⟩, ⟨true, true⟩)) ∧
    (frames.length < heapPageRange.length →
      init_heap m frames = Except.error MapToError.frameAllocationFailed) := by
  constructor
  · intro hlen
    obtain ⟨m', frames', heq, hidx, _⟩ :=
      init_heap_loop_ok heapPageRange m frames heapPageRange_nodup hlen
    constructor
    · show (init_heap_loop heapPageRange m frames).isOk = true
      rw [heq]
      rfl
    · intro i hp hf
      show (match init_heap_loop heapPageRange m frames with
        | Except.ok (m', _) => m'
        | Except.error _ => m) (heapPageRange.get ⟨i, hp⟩) =
          some (frames.get ⟨i, hf⟩, ⟨true, true⟩)
      rw [heq]
      exact hidx i hp hf
  · intro hshort
    exact init_heap_loop_exhausts heapPageRange m frames hshort

/-- Witness for C5: with 25 concrete frames `init_heap` succeeds and maps
the first heap page to the first handed-out frame; with a single frame it
reports `FrameAllocationFailed`. -/
theorem init_heap_maps_every_heap_page_witness :
    (init_heap emptyMapper ((List.range 25).map fun i => 4096 * (i + 1))).isOk = true ∧
      mapperAfter emptyMapper ((List.range 25).map fun i => 4096 * (i + 1))
          (heapPageRange.get ⟨0, by decide⟩) =
        some (((List.range 25).map fun i => 4096 * (i + 1)).get ⟨0, by decide⟩, ⟨true, true⟩) ∧
      init_heap emptyMapper [4096] = Except.error MapToError.frameAllocationFailed :=
  ⟨((init_heap_maps_every_heap_page emptyMapper
        ((List.range 25).map fun i => 4096 * (i + 1))).1 (by decide)).1,
    ((init_heap_maps_every_heap_page emptyMapper
        ((List.range 25).map fun i => 4096 * (i + 1))).1 (by decide)).2 0 (by decide) (by decide),
    (init_heap_maps_every_heap_page emptyMapper [4096]).2 (by decide)⟩

/-- Helper: `k` allocate_frame calls just advance the cursor by `k`. -/
theorem allocStateAfter_eq (a : BootInfoFrameAllocator) (k : Nat) :
    allocStateAfter a k = { a with next := a.next + k } := by
  induction k with
  | zero => rfl
  | succ k ih =>
    show (allocate_frame (allocStateAfter a k)).2 = _
    rw [ih]
    rfl

/-- Helper: the `k`-th call returns the `k`-th entry after the cursor. -/
theorem allocResult_eq (a : BootInfoFrameAllocator) (k : Nat) :
    allocResult a k = a.usable_frames[a.next + k]? := by
  simp [allocResult, allocate_frame, allocStateAfter_eq]

/-- C6: starting from a usable-memory map of distinct frames, no frame is
ever returned by two different `allocate_frame` calls before exhaustion,
and from the moment the map is exhausted every subsequent call
deterministically returns `none`. -/
theorem allocate_frame_no_reuse_then_exhausted (mm : List Nat)
    (hnd : mm.Nodup) :
    (∀ i j fi fj, allocResult ⟨mm, 0⟩ i = some fi →
      allocResult ⟨mm, 0⟩ j = some fj → i ≠ j → fi ≠ fj) ∧
    (∀ k, mm.length ≤ k → allocResult ⟨mm, 0⟩ k = none) := by
  constructor
  · intro i j fi fj hi hj hne heq
    rw [allocResult_eq] at hi hj
    simp only [Nat.zero_add] at hi hj
    have hilt : i < mm.length := by
      by_contra hge
      rw [List.getElem?_eq_none (by omega)] at hi
      cases hi
    exact hne (List.getElem?_inj hilt hnd (by rw [hi, hj, heq]))
  · intro k hk
    rw [allocResult_eq]
    simp only [Nat.zero_add]
    exact List.getElem?_eq_none hk

/-- Witness for C6 on the concrete map `[0, 4096, 8192]`: the first two
calls return distinct frames, and the fourth call is exhausted. -/
theorem allocate_frame_no_reuse_then_exhausted_witness :
    ((0 : Nat) ≠ 4096 ∧ allocResult ⟨[0, 4096, 8192], 0⟩ 3 = none) :=
  ⟨(allocate_frame_no_reuse_then_exhausted [0, 4096, 8192] (by decide)).1
      0 1 0 4096 (by decide) (by decide) (by decide),
    (allocate_frame_no_reuse_then_exhausted [0, 4096, 8192] (by decide)).2
      3 (by decide)⟩

/-- C7: `Executor::spawn` fails fatally when a task with the same id is
already in the task table; otherwise, when the capacity-100 ready queue is
full it fails fatally with "queue full", and when it is not full it stores
the task in the table and pushes its id onto the ready queue.  `TaskId::new`
hands out the monotonically increasing counter value, so each spawned task
gets a fresh identifier. -/
theorem spawn_characterisation (σ : Executor) (t : Nat × Nat) :
    ((σ.tasks.lookup t.1).isSome = true →
      σ.spawn t = Except.error "task with same ID already in tasks") ∧
    (σ.tasks.lookup t.1 = none → 100 ≤ σ.task_queue.length →
      σ.spawn t = Except.error "queue full") ∧
    (σ.tasks.lookup t.1 = none → σ.task_queue.length < 100 →
      σ.spawn t = Except.ok { σ with tasks := σ.tasks ++ [t],
                                     task_queue := σ.task_queue ++ [t.1] }) ∧
    (∀ c, TaskId.new c = (c, c + 1)) := by
  refine ⟨?_, ?_, ?_, fun c => rfl⟩
  · intro h
    simp [Executor.spawn, h]
  · intro h hlen
    simp [Executor.spawn, h, qpush, Nat.not_lt.mpr hlen]
  · intro h hlen
    simp [Executor.spawn, h, qpush, hlen]

/-- Witness for C7: a duplicate id panics, a full queue panics with
"queue full", and an ordinary spawn inserts the task and enqueues its
id. -/
theorem spawn_characterisation_witness :
    Executor.spawn ⟨[(0, 2)], [0], [], 0, []⟩ (0, 5) =
        Except.error "task with same ID already in tasks" ∧
      Executor.spawn ⟨[], List.replicate 100 7, [], 0, []⟩ (1, 2) =
        Except.error "queue full" ∧
      Executor.spawn Executor.new (0, 2) =
        Except.ok ⟨[(0, 2)], [0], [], 0, []⟩ ∧
      TaskId.new 5 = (5, 6) :=
  ⟨(spawn_characterisation ⟨[(0, 2)], [0], [], 0, []⟩ (0, 5)).1 (by decide),
    (spawn_characterisation ⟨[], List.replicate 100 7, [], 0, []⟩ (1, 2)).2.1
      (by decide) (by decide),
    (spawn_characterisation Executor.new (0, 2)).2.2.1 (by decide) (by decide),
    (spawn_characterisation Executor.new (0, 2)).2.2.2 5⟩

/-- Helper: looking up a key in an association list built over a contiguous
index range hits exactly when the key lies in the range. -/
theorem lookup_range'_map (f : Nat → Nat) :
    ∀ (n s k : Nat), ((List.range' s n).map (fun i => (i, f i))).lookup k =
      if s ≤ k ∧ k < s + n then some (f k) else none := by
  intro n
  induction n with
  | zero =>
    intro s k
    rw [if_neg (by omega)]
    rfl
  | succ n ih =>
    intro s k
    rw [List.range'_succ, List.map_cons]
    by_cases hk : k = s
    · subst hk
      rw [if_pos (by omega)]
      simp [List.lookup]
    · rw [show ((s, f s) :: (List.range' (s + 1) n).map fun i => (i, f i)).lookup k =
          ((List.range' (s + 1) n).map fun i => (i, f i)).lookup k by
        simp [List.lookup, beq_false_of_ne hk]]
      rw [ih]
      by_cases h1 : s + 1 ≤ k ∧ k < s + 1 + n
      · rw [if_pos h1, if_pos (by omega)]
      · rw [if_neg h1, if_neg (by omega)]

/-- Helper: the same, over `List.range`. -/
theorem lookup_range_map (f : Nat → Nat) (N k : Nat) :
    ((List.range N).map (fun i => (i, f i))).lookup k =
      if k < N then some (f k) else none := by
  rw [List.range_eq_range', lookup_range'_map]
  by_cases h : k < N
  · rw [if_pos (by omega), if_pos h]
  · rw [if_neg (by omega), if_neg h]

/-- Helper: one loop iteration when the popped id is no longer in the task
table: the id is skipped, nothing is polled. -/
theorem step_cons_missing (T : List (Nat × Nat)) (id : Nat) (q C : List Nat)
    (c : Nat) (L : List Nat) (h : T.lookup id = none) :
    Executor.step ⟨T, id :: q, C, c, L⟩ = StepRes.next ⟨T, q, C, c, L⟩ := by
  simp [Executor.step, h]

/-- Helper: one loop iteration when the popped task's poll returns
`Poll::Ready`: the task and its cached waker are removed. -/
theorem step_cons_ready (T : List (Nat × Nat)) (id : Nat) (q C : List Nat)
    (c : Nat) (L : List Nat) (rem : Nat) (h : T.lookup id = some rem)
    (hrem : rem ≤ 1) :
    Executor.step ⟨T, id :: q, C, c, L⟩ =
      StepRes.next ⟨removeTask T id, q,
        (if id ∈ C then C else id :: C).filter (fun x => x != id),
        c + 1, L ++ [id]⟩ := by
  simp [Executor.step, h, hrem]

/-- Helper: one loop iteration when the popped task's poll returns
`Poll::Pending` and its self-wake re-enqueues it. -/
theorem step_cons_pending (T : List (Nat × Nat)) (id : Nat) (q C : List Nat)
    (c : Nat) (L : List Nat) (rem : Nat) (h : T.lookup id = some rem)
    (hrem : ¬ rem ≤ 1) (hlen : q.length < 100) :
    Executor.step ⟨T, id :: q, C, c, L⟩ =
      StepRes.next ⟨updateTask T id (rem - 1), q ++ [id],
        if id ∈ C then C else id :: C, c, L ++ [id]⟩ := by
  simp [Executor.step, h, hrem, qpush, hlen]

/-- Helper: updating one task's state in a range-indexed task table. -/
theorem updateTask_range_map (f : Nat → Nat) (N j v : Nat) :
    updateTask ((List.range N).map (fun i => (i, f i))) j v =
      (List.range N).map (fun i => (i, if i = j then v else f i)) := by
  simp only [updateTask, List.map_map]
  apply List.map_congr_left
  intro i _
  by_cases h : i = j
  · subst h
    simp [Function.comp]
  · simp [Function.comp, h]

/-- Helper: removing the first task of a range-indexed task table. -/
theorem removeTask_head (f : Nat → Nat) (s n : Nat) :
    removeTask ((List.range' s (n + 1)).map (fun i => (i, f i))) s =
      (List.range' (s + 1) n).map (fun i => (i, f i)) := by
  rw [List.range'_succ, List.map_cons]
  show List.filter _ _ = _
  rw [List.filter_cons]
  simp only [bne_self_eq_false, if_false]
  apply List.filter_eq_self.mpr
  intro p hp
  obtain ⟨i, hi, rfl⟩ := List.mem_map.mp hp
  have h1 : s + 1 ≤ i := (List.mem_range'_1.mp hi).1
  simp only [bne_iff_ne]
  omega

/-- Helper: removing the least id from the reversed range of cached
wakers. -/
theorem filter_ne_reverse_range' (s n : Nat) :
    ((List.range' s (n + 1)).reverse).filter (fun x => x != s) =
      (List.range' (s + 1) n).reverse := by
  rw [List.range'_succ, List.reverse_cons, List.filter_append]
  have h1 : List.filter (fun x => x != s) ((List.range' (s + 1) n).reverse) =
      (List.range' (s + 1) n).reverse := by
    apply List.filter_eq_self.mpr
    intro x hx
    rw [List.mem_reverse] at hx
    have h2 : s + 1 ≤ x := (List.mem_range'_1.mp hx).1
    simp only [bne_iff_ne]
    omega
  rw [h1, show List.filter (fun x => x != s) [s] = [] by simp, List.append_nil]

/-- Helper: consing a fresh waker id onto the reversed cache range. -/
theorem cons_reverse_range (j : Nat) :
    j :: (List.range j).reverse = (List.range (j + 1)).reverse := by
  rw [List.range_succ, List.reverse_append]
  rfl

/-- Helper: a key absent from the keys of an association list looks up to
nothing. -/
theorem lookup_eq_none_of_not_mem (l : List (Nat × Nat)) (k : Nat)
    (h : k ∉ l.map Prod.fst) : l.lookup k = none := by
  induction l with
  | nil => rfl
  | cons p rest ih =>
    simp only [List.map_cons, List.mem_cons] at h
    push_neg at h
    obtain ⟨p1, p2⟩ := p
    simp only [List.lookup, beq_false_of_ne h.1]
    exact ih h.2

/-- Helper: unfolding one fuelled iteration of `runReady`. -/
theorem runReady_succ (fuel : Nat) (σ : Executor) :
    Executor.runReady (fuel + 1) σ =
      match σ.step with
      | StepRes.done => some σ
      | StepRes.fatal => none
      | StepRes.next σ' => Executor.runReady fuel σ' := rfl

/-- Helper: before any polling, the scenario state is the phase-1 state at
position 0. -/
theorem phase1_zero (N : Nat) : phase1 N 0 = scenarioInit N := by
  unfold phase1 scenarioInit
  simp only [Nat.sub_zero, List.range_zero, List.reverse_nil, List.append_nil,
    ← List.range_eq_range']
  congr 1

/-- Helper: after the first round of polls, the phase-1 state at position N
is the phase-2 state at position 0. -/
theorem phase1_end (N : Nat) : phase1 N N = phase2 N 0 := by
  unfold phase1 phase2
  simp only [Nat.sub_self, Nat.sub_zero, List.range_zero, List.append_nil,
    ← List.range_eq_range']
  congr 1
  apply List.map_congr_left
  intro i hi
  rw [List.mem_range] at hi
  simp [hi]

/-- Helper: the phase-2 state at position N is the final state. -/
theorem phase2_end (N : Nat) :
    phase2 N N = ⟨[], [], [], N, List.range N ++ List.range N⟩ := by
  unfold phase2
  simp [Nat.sub_self, List.range']

/-- Helper: during the first round, polling the task at the queue's head
suspends it (poll returns pending), caches its waker, and its self-wake
re-enqueues it at the back. -/
theorem step_phase1 (N j : Nat) (hj : j < N) (hN : N ≤ 100) :
    Executor.step (phase1 N j) = StepRes.next (phase1 N (j + 1)) := by
  have hNj : N - j = (N - (j + 1)) + 1 := by omega
  have hq : phase1 N j =
      ⟨(List.range N).map (fun i => (i, if i < j then 1 else 2)),
        j :: (List.range' (j + 1) (N - (j + 1)) ++ List.range j),
        (List.range j).reverse, 0, List.range j⟩ := by
    unfold phase1
    rw [hNj, List.range'_succ, List.cons_append]
  rw [hq]
  have hlook : ((List.range N).map (fun i => (i, if i < j then 1 else 2))).lookup j
      = some 2 := by
    rw [lookup_range_map, if_pos hj, if_neg (lt_irrefl j)]
  rw [step_cons_pending _ _ _ _ _ _ _ hlook (by omega)
    (by simp [List.length_append, List.length_range]; omega)]
  refine congrArg StepRes.next ?_
  unfold phase1
  have e1 : updateTask ((List.range N).map (fun i => (i, if i < j then 1 else 2)))
      j (2 - 1) = (List.range N).map (fun i => (i, if i < j + 1 then 1 else 2)) := by
    rw [updateTask_range_map]
    apply List.map_congr_left
    intro i _
    by_cases h1 : i = j
    · subst h1
      simp
    · by_cases h2 : i < j
      · rw [if_neg h1, if_pos h2, if_pos (show i < j + 1 by omega)]
      · rw [if_neg h1, if_neg h2, if_neg (show ¬ i < j + 1 by omega)]
  have e2 : (List.range' (j + 1) (N - (j + 1)) ++ List.range j) ++ [j] =
      List.range' (j + 1) (N - (j + 1)) ++ List.range (j + 1) := by
    rw [List.append_assoc, ← List.range_succ]
  have e3 : (if j ∈ (List.range j).reverse then (List.range j).reverse
      else j :: (List.range j).reverse) = (List.range (j + 1)).reverse := by
    rw [if_neg (by simp [List.mem_reverse, List.mem_range])]
    exact cons_reverse_range j
  have e4 : List.range j ++ [j] = List.range (j + 1) := (List.range_succ j).symm
  rw [e1, e2, e3, e4]

/-- Helper: during the second round, polling the task at the queue's head
completes it, removing it and its cached waker. -/
theorem step_phase2 (N j : Nat) (hj : j < N) :
    Executor.step (phase2 N j) = StepRes.next (phase2 N (j + 1)) := by
  have hNj : N - j = (N - (j + 1)) + 1 := by omega
  have hq : phase2 N j =
      ⟨(j, 1) :: (List.range' (j + 1) (N - (j + 1))).map (fun i => (i, 1)),
        j :: List.range' (j + 1) (N - (j + 1)),
        (j :: List.range' (j + 1) (N - (j + 1))).reverse, j,
        List.range N ++ List.range j⟩ := by
    unfold phase2
    rw [hNj, List.range'_succ, List.map_cons]
  rw [hq]
  have hlook : ((j, 1) :: (List.range' (j + 1) (N - (j + 1))).map
      (fun i => (i, 1))).lookup j = some 1 := by
    simp [List.lookup]
  rw [step_cons_ready _ _ _ _ _ _ _ hlook (by omega)]
  refine congrArg StepRes.next ?_
  unfold phase2
  have e1 : removeTask ((j, 1) :: (List.range' (j + 1) (N - (j + 1))).map
      (fun i => (i, 1))) j = (List.range' (j + 1) (N - (j + 1))).map
      (fun i => (i, 1)) := by
    show List.filter _ _ = _
    rw [List.filter_cons]
    simp only [bne_self_eq_false, if_false]
    apply List.filter_eq_self.mpr
    intro p hp
    obtain ⟨i, hi, rfl⟩ := List.mem_map.mp hp
    have h1 : j + 1 ≤ i := (List.mem_range'_1.mp hi).1
    simp only [bne_iff_ne]
    omega
  have e3 : (if j ∈ (j :: List.range' (j + 1) (N - (j + 1))).reverse
      then (j :: List.range' (j + 1) (N - (j + 1))).reverse
      else j :: (j :: List.range' (j + 1) (N - (j + 1))).reverse).filter
        (fun x => x != j) = (List.range' (j + 1) (N - (j + 1))).reverse := by
    rw [if_pos (by simp)]
    rw [show (j :: List.range' (j + 1) (N - (j + 1))) =
      List.range' j ((N - (j + 1)) + 1) from (List.range'_succ j _ 1).symm]
    exact filter_ne_reverse_range' j (N - (j + 1))
  have e4 : (List.range N ++ List.range j) ++ [j] =
      List.range N ++ List.range (j + 1) := by
    rw [List.append_assoc, ← List.range_succ]
  rw [e1, e3, e4]

/-- Helper: from any phase-2 position, the loop drains the queue, completing
every remaining task. -/
theorem runReady_phase2 (N : Nat) : ∀ k j, j + k = N →
    Executor.runReady (k + 1) (phase2 N j) = some (phase2 N N) := by
  intro k
  induction k with
  | zero =>
    intro j hj
    have hjN : j = N := by omega
    subst hjN
    rw [runReady_succ]
    have hstep : Executor.step (phase2 j j) = StepRes.done := by
      rw [phase2_end]
      rfl
    rw [hstep]
  | succ k ih =>
    intro j hj
    have hjN : j < N := by omega
    show Executor.runReady (k + 1 + 1) (phase2 N j) = _
    rw [runReady_succ, step_phase2 N j hjN]
    exact ih (j + 1) (by omega)

/-- Helper: from any phase-1 position, the loop first finishes the pending
round and then drains the queue. -/
theorem runReady_phase1 (N : Nat) (hN : N ≤ 100) : ∀ k j, j + k = N →
    Executor.runReady (k + (N + 1)) (phase1 N j) = some (phase2 N N) := by
  intro k
  induction k with
  | zero =>
    intro j hj
    have hjN : j = N := by omega
    subst hjN
    rw [Nat.zero_add, phase1_end]
    exact runReady_phase2 j j 0 (by omega)
  | succ k ih =>
    intro j hj
    have hjN : j < N := by omega
    rw [show k + 1 + (N + 1) = (k + (N + 1)) + 1 by omega]
    rw [runReady_succ, step_phase1 N j hjN hN]
    exact ih (j + 1) (by omega)

/-- Helper: spawning a list of fresh-id tasks succeeds while the queue has
room, appending the tasks to the table and their ids to the ready queue. -/
theorem spawnAll_ok : ∀ (ts : List (Nat × Nat)) (σ : Executor),
    (σ.tasks.map Prod.fst ++ ts.map Prod.fst).Nodup →
    σ.task_queue.length + ts.length ≤ 100 →
    spawnAll ts σ = Except.ok { σ with tasks := σ.tasks ++ ts,
                                       task_queue := σ.task_queue ++ ts.map Prod.fst } := by
  intro ts
  induction ts with
  | nil =>
    intro σ _ _
    show Except.ok σ = _
    simp
  | cons t rest ih =>
    intro σ hnd hlen
    have hdisj :=
      (List.nodup_append.mp (by simpa using hnd)).2.2
    have hkey : σ.tasks.lookup t.1 = none := by
      apply lookup_eq_none_of_not_mem
      intro hmem
      exact hdisj hmem (by simp)
    have hq : qpush σ.task_queue t.1 = some (σ.task_queue ++ [t.1]) := by
      simp only [qpush, if_pos (show σ.task_queue.length < 100 by
        simp at hlen
        omega)]
    have hspawn : σ.spawn t =
        Except.ok { σ with tasks := σ.tasks ++ [t],
                           task_queue := σ.task_queue ++ [t.1] } := by
      simp only [Executor.spawn, hkey, Option.isSome_none, Bool.false_eq_true,
        if_false, hq]
    have hih := ih { σ with tasks := σ.tasks ++ [t],
                            task_queue := σ.task_queue ++ [t.1] }
      (by simpa [List.append_assoc] using hnd)
      (by simp at hlen ⊢; omega)
    show (match σ.spawn t with
      | Except.ok σ' => spawnAll rest σ'
      | Except.error e => Except.error e) = _
    rw [hspawn]
    show spawnAll rest { σ with tasks := σ.tasks ++ [t],
                                task_queue := σ.task_queue ++ [t.1] } = _
    rw [hih]
    simp [List.append_assoc]

/-- C8: in the executor's run loop, a task id popped from the ready queue
whose task is no longer in the table is skipped without being polled — so a
completed task, which `run_ready_tasks` removes from the table together with
its cached waker, is never polled again; and spawning N yield-once tasks
(each suspends once waiting on its own wake handle and completes after being
woken) followed by running the loop yields exactly N completions, each task
polled exactly twice (the poll log is two rounds over the N ids), and
empties both the task table and the waker cache. -/
theorem executor_never_polls_completed_tasks :
    (∀ (σ : Executor) (id : Nat) (rest : List Nat),
        σ.task_queue = id :: rest → σ.tasks.lookup id = none →
        Executor.step σ = StepRes.next { σ with task_queue := rest }) ∧
    ∀ N : Nat, N ≤ 100 →
      spawnAll (yieldOnceTasks N) Executor.new = Except.ok (scenarioInit N) ∧
      Executor.runReady (2 * N + 1) (scenarioInit N) =
        some ⟨[], [], [], N, List.range N ++ List.range N⟩ := by
  constructor
  · intro σ id rest hq hl
    obtain ⟨T, Q, C, c, L⟩ := σ
    have hq' : Q = id :: rest := hq
    subst hq'
    exact step_cons_missing T id rest C c L hl
  · intro N hN
    have hmapfst : (yieldOnceTasks N).map Prod.fst = List.range N := by
      simp only [yieldOnceTasks, List.map_map]
      show List.map (fun i => i) (List.range N) = List.range N
      exact List.map_id' (List.range N)
    have hnd : (Executor.new.tasks.map Prod.fst ++
        (yieldOnceTasks N).map Prod.fst).Nodup := by
      rw [hmapfst]
      show (([] : List Nat) ++ List.range N).Nodup
      rw [List.nil_append]
      exact List.nodup_range N
    have hlen : Executor.new.task_queue.length + (yieldOnceTasks N).length ≤ 100 := by
      show ([] : List Nat).length + ((List.range N).map fun i => (i, 2)).length ≤ 100
      simpa using hN
    constructor
    · rw [spawnAll_ok (yieldOnceTasks N) Executor.new hnd hlen]
      refine congrArg Except.ok ?_
      rw [show ({ Executor.new with
            tasks := Executor.new.tasks ++ yieldOnceTasks N,
            task_queue := Executor.new.task_queue ++ (yieldOnceTasks N).map Prod.fst } :
          Executor) =
        ⟨yieldOnceTasks N, (yieldOnceTasks N).map Prod.fst, [], 0, []⟩ from rfl]
      rw [hmapfst]
      rfl
    · rw [← phase1_zero, show 2 * N + 1 = N + (N + 1) by omega,
        runReady_phase1 N hN N 0 (by omega), phase2_end]

/-- Witness for C8 at N = 3, together with a concrete skipped pop of a
removed task's id. -/
theorem executor_never_polls_completed_tasks_witness :
    Executor.step ⟨[], 5 :: [], [], 0, []⟩ = StepRes.next ⟨[], [], [], 0, []⟩ ∧
      spawnAll (yieldOnceTasks 3) Executor.new = Except.ok (scenarioInit 3) ∧
      Executor.runReady (2 * 3 + 1) (scenarioInit 3) =
        some ⟨[], [], [], 3, List.range 3 ++ List.range 3⟩ :=
  ⟨executor_never_polls_completed_tasks.1 ⟨[], 5 :: [], [], 0, []⟩ 5 [] rfl rfl,
    (executor_never_polls_completed_tasks.2 3 (by decide)).1,
    (executor_never_polls_completed_tasks.2 3 (by decide)).2⟩
